import Mathlib

/-!
# Verification of the Theia browser menu plugin and widget open handler

Shallow embedding of `packages/core/src/browser/menu/browser-menu-plugin.ts`
(the `BrowserMainMenuFactory`, `DynamicMenuWidget` projection engine) and of
the `WidgetOpenHandler` unit concatenated in the same source excerpt.

Conventions of the embedding:
* The external `CommandRegistry` and `KeybindingRegistry` collaborators are
  records of functions; the code only ever calls the methods modelled here.
* The Phosphor `CommandRegistry` built per menu (`createPhosporCommands`) is
  pure data.  Its `addCommand` callbacks (`isEnabled`, `isVisible`,
  `isToggled`) are closures of the form `() => this.commandRegistry.isX(id)`:
  they capture only the command id and query the *current* external registry
  when invoked.  We therefore store the captured id in the entry and pass the
  external registry that is current at call time to `isVisible`.
* `createMenuBar` installs an own-property override
  `phosphorCommands.isVisible = () => true`; that is the `forceVisible` flag.
* Mutation (`items.push`) becomes accumulator passing; the accumulator is the
  very list the TypeScript code mutates and returns.
-/

namespace Theia

/-- A command of the external (Theia) command registry, as consumed here:
`command.id` and `command.iconClass` are the only fields read. -/
structure Command where
  id : String
  iconClass : Option String
deriving DecidableEq

/-- The external Theia `CommandRegistry` collaborator: the methods the plugin
calls (`getCommand`, `isEnabled`, `isVisible`, `isToggled`).  `executeCommand`
performs an effect and returns nothing observable here. -/
structure CommandRegistry where
  getCommand : String → Option Command
  isEnabled : String → Bool
  isVisible : String → Bool
  isToggled : String → Bool

/-- Modelled from the spec: the keybinding type lives in `../keybinding`,
which is not part of the excerpt.  Per the spec it is an opaque binding datum
with "a pure formatter `acceleratorFor(binding) -> display string`".  We keep
the binding's keystroke data as one string. -/
structure Keybinding where
  keystroke : String
deriving DecidableEq

/-- Modelled from the spec: the pure formatter
`acceleratorFor(binding) -> display string` of the keybinding collaborator. -/
def Keybinding.acceleratorFor (b : Keybinding) : String :=
  b.keystroke

/-- The external `KeybindingRegistry` collaborator: only
`getKeybindingsForCommand` is called, returning an ordered sequence. -/
structure KeybindingRegistry where
  getKeybindingsForCommand : String → List Keybinding

/-- The menu model node hierarchy (`ActionMenuNode` / `CompositeMenuNode`).
An action node carries the referenced `commandId` and its display label; a
composite node carries its optional label, its `isSubmenu` discriminant, and
its ordered children. -/
inductive MenuNode where
  | action (commandId : String) (label : Option String)
  | composite (label : Option String) (isSubmenu : Bool) (children : List MenuNode)

/-- `menu.children` for a composite node (action nodes have none). -/
def MenuNode.children : MenuNode → List MenuNode
  | .action _ _ => []
  | .composite _ _ cs => cs

/-- One entry of the per-menu Phosphor command registry, as added by
`addPhosphorCommand`.  The `isEnabled`/`isVisible`/`isToggled` callbacks
capture only `command.id`; we record that captured id. -/
structure PhosphorCommandEntry where
  label : Option String
  icon : Option String
  commandId : String
deriving DecidableEq

/-- A keybinding record added by `commands.addKeyBinding`. -/
structure PhosphorKeyBinding where
  command : String
  keys : String
  selector : String
deriving DecidableEq

/-- The per-menu Phosphor `CommandRegistry`.  `forceVisible` models the
own-property override `phosphorCommands.isVisible = () => true` installed by
`createMenuBar` (absent for context menus). -/
structure PhosphorCommandRegistry where
  entries : List (String × PhosphorCommandEntry)
  keybindings : List PhosphorKeyBinding
  forceVisible : Bool
deriving DecidableEq

/-- `commands.isVisible(id)` as observed by `buildSubMenus`: the menu-bar
override returns `true` unconditionally; otherwise Phosphor looks the command
up and runs its `isVisible` callback, returning `false` for a missing
command.  The callback queries the external registry current at call time
(`ext`) with the captured command id. -/
def PhosphorCommandRegistry.isVisible
    (commands : PhosphorCommandRegistry) (ext : CommandRegistry)
    (id : String) : Bool :=
  if commands.forceVisible then
    true
  else
    match commands.entries.find? (fun e => e.1 == id) with
    | some e => ext.isVisible e.2.commandId
    | none => false

/-- `BrowserMainMenuFactory.addPhosphorCommand`: resolve the action's command
in the external registry; if unresolved, return unchanged (silent omission).
Otherwise register the command under `command.id` and, when the keybinding
collaborator returns a non-empty sequence, record the accelerator of exactly
the first binding. -/
def addPhosphorCommand (extAtCreate : CommandRegistry) (kb : KeybindingRegistry)
    (commands : PhosphorCommandRegistry) (commandId : String)
    (label : Option String) : PhosphorCommandRegistry :=
  match extAtCreate.getCommand commandId with
  | none => commands
  | some command =>
    let commands :=
      { commands with
        entries := commands.entries ++
          [(command.id, ⟨label, command.iconClass, command.id⟩)] }
    match kb.getKeybindingsForCommand command.id with
    | [] => commands
    | binding :: _ =>
      { commands with
        keybindings := commands.keybindings ++
          [⟨command.id, Keybinding.acceleratorFor binding, ".p-Widget"⟩] }

/-- The loop body of `BrowserMainMenuFactory.addPhosphorCommands`: walk the
children, registering each action node and recursing into composites. -/
def addPhosphorCommandsList (extAtCreate : CommandRegistry)
    (kb : KeybindingRegistry) :
    PhosphorCommandRegistry → List MenuNode → PhosphorCommandRegistry
  | commands, [] => commands
  | commands, MenuNode.action commandId label :: rest =>
    addPhosphorCommandsList extAtCreate kb
      (addPhosphorCommand extAtCreate kb commands commandId label) rest
  | commands, MenuNode.composite _ _ children :: rest =>
    addPhosphorCommandsList extAtCreate kb
      (addPhosphorCommandsList extAtCreate kb commands children) rest

/-- `BrowserMainMenuFactory.createPhosporCommands`: a fresh Phosphor registry
populated from the menu subtree. -/
def createPhosporCommands (extAtCreate : CommandRegistry)
    (kb : KeybindingRegistry) (menu : MenuNode) : PhosphorCommandRegistry :=
  addPhosphorCommandsList extAtCreate kb ⟨[], [], false⟩ menu.children

/-- A rendered item descriptor (`MenuWidget.IItemOptions`): a command item, a
submenu item wrapping the nested `DynamicMenuWidget`'s built item list, or a
separator. -/
inductive ItemOptions where
  | command (commandId : String)
  | submenu (items : List ItemOptions)
  | separator

/-- `DynamicMenuWidget.buildSubMenus(items, menu, commands)` specialised to
the child list of `menu`: the depth-first projection.  `ext` is the external
registry state current at this render, consulted by the stored visibility
callbacks.  Composite children with no children are skipped; submenu children
whose recursively built widget has no items are skipped; group children whose
recursive projection is empty are skipped, and otherwise contribute one
separator exactly when the accumulated `items` is already non-empty; action
children are filtered by `commands.isVisible`. -/
def buildSubMenus (ext : CommandRegistry) (commands : PhosphorCommandRegistry)
    (items : List ItemOptions) : List MenuNode → List ItemOptions
  | [] => items
  | MenuNode.composite _ isSubmenu children :: rest =>
    if children.length > 0 then
      if isSubmenu then
        let submenu := buildSubMenus ext commands [] children
        if submenu.length = 0 then
          buildSubMenus ext commands items rest
        else
          buildSubMenus ext commands (items ++ [ItemOptions.submenu submenu]) rest
      else
        let submenu := buildSubMenus ext commands [] children
        if submenu.length = 0 then
          buildSubMenus ext commands items rest
        else if items.length > 0 then
          buildSubMenus ext commands
            ((items ++ [ItemOptions.separator]) ++ submenu) rest
        else
          buildSubMenus ext commands (items ++ submenu) rest
    else
      buildSubMenus ext commands items rest
  | MenuNode.action commandId _ :: rest =>
    if !commands.isVisible ext commandId then
      buildSubMenus ext commands items rest
    else
      buildSubMenus ext commands (items ++ [ItemOptions.command commandId]) rest
termination_by l => sizeOf l

/-- `menu.label` of a model node. -/
def MenuNode.label : MenuNode → Option String
  | .action _ label => label
  | .composite label _ _ => label

/-- The state of a `DynamicMenuWidget`: the model node it was created over,
the Phosphor command registry handed in through `options.commands`, the
widget title, and the currently rendered item descriptors. -/
structure DynamicMenuWidget where
  menu : MenuNode
  commands : PhosphorCommandRegistry
  titleLabel : Option String
  items : List ItemOptions

/-- `DynamicMenuWidget.updateSubMenus`: build the descriptors for `menu` and
add each to `parent` (`parent.addItem` appends). -/
def updateSubMenus (ext : CommandRegistry) (parent : DynamicMenuWidget)
    (menu : MenuNode) (commands : PhosphorCommandRegistry) : DynamicMenuWidget :=
  { parent with items := parent.items ++ buildSubMenus ext commands [] menu.children }

/-- The `DynamicMenuWidget` constructor: record the model and options, set
the title from the model label, and render once via `updateSubMenus`.
`ext` is the external registry state current at construction. -/
def DynamicMenuWidget.create (ext : CommandRegistry) (menu : MenuNode)
    (commands : PhosphorCommandRegistry) : DynamicMenuWidget :=
  updateSubMenus ext
    { menu := menu, commands := commands, titleLabel := menu.label, items := [] }
    menu commands

/-- `Menu.clearItems()`: remove all items from the widget. -/
def DynamicMenuWidget.clearItems (w : DynamicMenuWidget) : DynamicMenuWidget :=
  { w with items := [] }

/-- `DynamicMenuWidget.aboutToShow`: clear the items, then re-render the
stored model against the stored `options.commands` registry.  `extNow` is the
external registry state at show time, seen by the visibility callbacks. -/
def DynamicMenuWidget.aboutToShow (extNow : CommandRegistry)
    (w : DynamicMenuWidget) : DynamicMenuWidget :=
  updateSubMenus extNow w.clearItems w.menu w.commands

/-- `BrowserMainMenuFactory.createContextMenu`: a widget over the resolved
model with a freshly populated Phosphor registry (no visibility override). -/
def createContextMenu (ext : CommandRegistry) (kb : KeybindingRegistry)
    (menuModel : MenuNode) : DynamicMenuWidget :=
  DynamicMenuWidget.create ext menuModel (createPhosporCommands ext kb menuModel)

/-- The Phosphor registry built by `createMenuBar`: the populated registry
with the own-property override `isVisible = () => true` installed ("for the
main menu we want all items to be visible"). -/
def createMenuBarCommands (ext : CommandRegistry) (kb : KeybindingRegistry)
    (menuModel : MenuNode) : PhosphorCommandRegistry :=
  { createPhosporCommands ext kb menuModel with forceVisible := true }

/-- `BrowserMainMenuFactory.createMenuBar`: one `DynamicMenuWidget` per
composite child of the main menu model, all sharing the force-visible
Phosphor registry. -/
def createMenuBar (ext : CommandRegistry) (kb : KeybindingRegistry)
    (menuModel : MenuNode) : List DynamicMenuWidget :=
  let phosphorCommands := createMenuBarCommands ext kb menuModel
  menuModel.children.filterMap fun m =>
    match m with
    | MenuNode.composite _ _ _ => some (DynamicMenuWidget.create ext m phosphorCommands)
    | MenuNode.action _ _ => none

/-- Definition following the spec's words for the show transition: "discard
any previously rendered descriptors, rebuild the snapshot from current
external command/keybinding state, re-run projection, populate the view"
(and "never staler").  Stated only to be compared against the code's
`DynamicMenuWidget.aboutToShow`, which does not rebuild the snapshot. -/
def aboutToShowSpecRebuild (extNow : CommandRegistry) (kb : KeybindingRegistry)
    (w : DynamicMenuWidget) : DynamicMenuWidget :=
  let snapshot :=
    { createPhosporCommands extNow kb w.menu with forceVisible := w.commands.forceVisible }
  { w with
    commands := snapshot
    items := buildSubMenus extNow snapshot [] w.menu.children }

/-!
## Focus capture and restoration (`DynamicMenuWidget.open`)

`open(x, y)` reads `window.document.activeElement`, connects a callback `cb`
to the widget's `aboutToClose` signal, and `cb` — run when the signal fires —
focuses the captured element and disconnects itself.  The DOM focus state and
the signal's ordered slot list are modelled explicitly; firing the signal
runs each connected callback once, in connection order.
-/

/-- Focus state: the element currently holding focus
(`window.document.activeElement`) and, for one menu widget, the elements
captured by the callbacks currently connected to its `aboutToClose` signal,
in connection order. -/
structure MenuFocusState where
  activeElement : String
  aboutToCloseCallbacks : List String
deriving DecidableEq

/-- The focus-relevant effect of `DynamicMenuWidget.open`: capture the
currently active element and connect a restoration callback holding it. -/
def DynamicMenuWidget.openConnect (s : MenuFocusState) : MenuFocusState :=
  { s with aboutToCloseCallbacks := s.aboutToCloseCallbacks ++ [s.activeElement] }

/-- Run the connected callbacks in order: each focuses its captured element
(`previouslyActive.focus()`), so the last one fired determines the final
focus. -/
def runAboutToCloseCallbacks : String → List String → String
  | focused, [] => focused
  | _, captured :: rest => runAboutToCloseCallbacks captured rest

/-- Firing the `aboutToClose` signal when the menu closes: every connected
callback runs once (focusing its captured element) and disconnects itself
(`this.aboutToClose.disconnect(cb)`), leaving no callback connected. -/
def fireAboutToClose (s : MenuFocusState) : MenuFocusState :=
  { activeElement := runAboutToCloseCallbacks s.activeElement s.aboutToCloseCallbacks
    aboutToCloseCallbacks := [] }

/-!
## The `WidgetOpenHandler` unit
-/

/-- Modelled from the spec: the resource identifier type `URI` lives in
`common/uri`, outside the excerpt.  A URI is its components; `toString`
renders them with the fragment last, and `withoutFragment` drops the
fragment. -/
structure URI where
  scheme : String
  authority : String
  path : String
  query : String
  fragment : String
deriving DecidableEq

/-- Modelled from the spec: `uri.withoutFragment()` — the same URI with the
fragment removed. -/
def URI.withoutFragment (u : URI) : URI :=
  { u with fragment := "" }

/-- Modelled from the spec: `uri.toString()` — the string form of the URI,
a function of its components only, with the fragment rendered last. -/
def URI.toString (u : URI) : String :=
  u.scheme ++ "://" ++ u.authority ++ u.path ++
    (if u.query = "" then "" else "?" ++ u.query) ++
    (if u.fragment = "" then "" else "#" ++ u.fragment)

/-- `WidgetOpenHandler.createWidgetOptions(uri, options)`:
`uri.withoutFragment().toString()`. -/
def WidgetOpenHandler.createWidgetOptions (uri : URI) : String :=
  (URI.withoutFragment uri).toString

/-- A widget as far as this unit observes it: its identity and whether it is
attached to the shell. -/
structure Widget where
  wid : Nat
  isAttached : Bool
deriving DecidableEq

/-- The widget manager's store: widgets held per (factory id, widget-options
key), plus a counter for fresh widget identities. -/
structure WidgetManagerState where
  widgets : List ((String × String) × Widget)
  nextId : Nat
deriving DecidableEq

/-- Modelled from the spec: `WidgetManager.getWidget(factoryId, options)` —
the widget the manager already holds under the key, if any. -/
def WidgetManagerState.getWidget (st : WidgetManagerState)
    (factoryId key : String) : Option Widget :=
  (st.widgets.find? fun e => e.1.1 == factoryId && e.1.2 == key).map (·.2)

/-- Modelled from the spec: `WidgetManager.getOrCreateWidget` — "reuses an
existing widget if the manager already has one for the derived widget-options
key", otherwise materializes a fresh (not yet attached) widget and records
it. -/
def WidgetManagerState.getOrCreateWidget (st : WidgetManagerState)
    (factoryId key : String) : Widget × WidgetManagerState :=
  match st.getWidget factoryId key with
  | some w => (w, st)
  | none =>
    let w : Widget := ⟨st.nextId, false⟩
    (w, { widgets := st.widgets ++ [((factoryId, key), w)], nextId := st.nextId + 1 })

/-- `WidgetOpenMode = 'open' | 'reveal' | 'activate'` (`openMode` spells the
string `'open'`, a Lean keyword). -/
inductive WidgetOpenMode where
  | openMode
  | reveal
  | activate
deriving DecidableEq

/-- `WidgetOpenerOptions`: the optional mode (default `'activate'`) and the
optional shell placement (modelled by its area string, default `'main'`). -/
structure WidgetOpenerOptions where
  mode : Option WidgetOpenMode
  widgetOptions : Option String
deriving DecidableEq

/-- A call made on the `ApplicationShell` collaborator, recorded in order. -/
inductive ShellCall where
  | addWidget (wid : Nat) (area : String)
  | activateWidget (wid : Nat)
  | revealWidget (wid : Nat)
deriving DecidableEq

/-- `WidgetOpenHandler.doOpen`: apply the defaulted options — attach the
widget if it is not attached, then activate on mode `'activate'`, reveal on
mode `'reveal'`, and do neither on mode `'open'`.  Returns the ordered shell
calls. -/
def WidgetOpenHandler.doOpen (widget : Widget)
    (options : Option WidgetOpenerOptions) : List ShellCall :=
  let mode := (options.bind (·.mode)).getD WidgetOpenMode.activate
  let area := (options.bind (·.widgetOptions)).getD "main"
  (if !widget.isAttached then [ShellCall.addWidget widget.wid area] else []) ++
    match mode with
    | WidgetOpenMode.activate => [ShellCall.activateWidget widget.wid]
    | WidgetOpenMode.reveal => [ShellCall.revealWidget widget.wid]
    | WidgetOpenMode.openMode => []

/-- `WidgetOpenHandler.open`: get or create the widget for the derived
widget-options key, then `doOpen` it.  Returns the widget, the manager state
after the call, and the shell calls made. -/
def WidgetOpenHandler.open (handlerId : String) (st : WidgetManagerState)
    (uri : URI) (options : Option WidgetOpenerOptions) :
    Widget × WidgetManagerState × List ShellCall :=
  let r := st.getOrCreateWidget handlerId (WidgetOpenHandler.createWidgetOptions uri)
  (r.1, r.2, WidgetOpenHandler.doOpen r.1 options)

/-- `WidgetOpenHandler.getByUri` (via `getWidget`): the already-opened widget
for the uri's derived key, if any. -/
def WidgetOpenHandler.getByUri (handlerId : String) (st : WidgetManagerState)
    (uri : URI) : Option Widget :=
  st.getWidget handlerId (WidgetOpenHandler.createWidgetOptions uri)

/-!
## Helper predicates used by the theorems
-/

/-- Does the list contain a renderable leaf: an action node, possibly nested
in composites, whose command is visible under `commands`/`ext`?  (Structured
like `buildSubMenus` for aligned induction.) -/
def hasRenderableLeafList (ext : CommandRegistry)
    (commands : PhosphorCommandRegistry) : List MenuNode → Bool
  | [] => false
  | MenuNode.action commandId _ :: rest =>
    commands.isVisible ext commandId || hasRenderableLeafList ext commands rest
  | MenuNode.composite _ _ children :: rest =>
    hasRenderableLeafList ext commands children ||
      hasRenderableLeafList ext commands rest
termination_by l => sizeOf l

/-- A single node has a renderable leaf. -/
def hasRenderableLeaf (ext : CommandRegistry)
    (commands : PhosphorCommandRegistry) (n : MenuNode) : Bool :=
  hasRenderableLeafList ext commands [n]

/-- Is the descriptor a separator? -/
def ItemOptions.isSeparator : ItemOptions → Bool
  | .separator => true
  | _ => false

/-- Number of separator descriptors at the top level of a descriptor list. -/
def sepCount (items : List ItemOptions) : Nat :=
  items.countP ItemOptions.isSeparator

/-- Is the node a group (a composite that is not a submenu)? -/
def MenuNode.isGroupNode : MenuNode → Bool
  | .composite _ false _ => true
  | _ => false

/-! ### Concrete fixtures used by closed witnesses and counterexamples -/

/-- An external registry with no commands registered. -/
def extEmpty : CommandRegistry :=
  ⟨fun _ => none, fun _ => false, fun _ => false, fun _ => false⟩

/-- An external registry where every id resolves, enabled and visible. -/
def extVisible : CommandRegistry :=
  ⟨fun id => some ⟨id, none⟩, fun _ => true, fun _ => true, fun _ => false⟩

/-- An external registry where every id resolves but nothing is visible. -/
def extHidden : CommandRegistry :=
  ⟨fun id => some ⟨id, none⟩, fun _ => true, fun _ => false, fun _ => false⟩

/-- A keybinding registry with no bindings at all. -/
def kbEmpty : KeybindingRegistry := ⟨fun _ => []⟩

/-- An empty Phosphor registry without the menu-bar visibility override. -/
def phosphorEmpty : PhosphorCommandRegistry := ⟨[], [], false⟩

/-- An empty Phosphor registry with the menu-bar visibility override. -/
def phosphorForce : PhosphorCommandRegistry := ⟨[], [], true⟩

/-- Fixture: a child list with zero renderable leaves — a hidden action next
to a "File" submenu holding only a hidden action. -/
def hiddenChildren : List MenuNode :=
  [MenuNode.action "cmdNew" none,
   MenuNode.composite (some "File") true [MenuNode.action "cmdSave" none]]

/-- Fixture: a keybinding registry returning two bindings for every id. -/
def kbTwo : KeybindingRegistry :=
  ⟨fun _ => [⟨"ctrlcmd+n"⟩, ⟨"alt+n"⟩]⟩

/-- Fixture: a resource uri without query or fragment. -/
def uriFix : URI := ⟨"file", "", "/a/b.txt", "", ""⟩

/-- Fixture: an already-attached widget. -/
def widgetFix : Widget := ⟨5, true⟩

/-- Fixture: a manager already holding `widgetFix` for `uriFix`'s key. -/
def stFix : WidgetManagerState :=
  ⟨[(("code-editor", WidgetOpenHandler.createWidgetOptions uriFix), widgetFix)], 6⟩

end Theia

namespace Theia

/-- A subtree list without renderable leaves contributes nothing: the
projection returns the accumulated items unchanged. -/
theorem buildSubMenus_noRender (ext : CommandRegistry)
    (commands : PhosphorCommandRegistry) (items : List ItemOptions)
    (l : List MenuNode) (hno : hasRenderableLeafList ext commands l = false) :
    buildSubMenus ext commands items l = items := by
  induction items, l using buildSubMenus.induct ext commands with
  | case1 items => simp [buildSubMenus]
  | case2 items label children rest hlen submenu hsub ihc ihr =>
    simp only [hasRenderableLeafList, Bool.or_eq_false_iff] at hno
    simp only [buildSubMenus, if_pos hlen, if_true, if_pos hsub]
    exact ihr hno.2
  | case3 items label children rest hlen submenu hsub ihc ihr =>
    simp only [hasRenderableLeafList, Bool.or_eq_false_iff] at hno
    have hz : (buildSubMenus ext commands [] children).length = 0 := by
      simp [ihc hno.1]
    exact absurd hz hsub
  | case4 items label isSubmenu children rest hlen hgrp submenu hsub ihc ihr =>
    simp only [hasRenderableLeafList, Bool.or_eq_false_iff] at hno
    simp only [buildSubMenus, if_pos hlen, if_neg hgrp, if_pos hsub]
    exact ihr hno.2
  | case5 items label isSubmenu children rest hlen hgrp submenu hsub hacc ihc ihr =>
    simp only [hasRenderableLeafList, Bool.or_eq_false_iff] at hno
    have hz : (buildSubMenus ext commands [] children).length = 0 := by
      simp [ihc hno.1]
    exact absurd hz hsub
  | case6 items label isSubmenu children rest hlen hgrp submenu hsub hacc ihc ihr =>
    simp only [hasRenderableLeafList, Bool.or_eq_false_iff] at hno
    have hz : (buildSubMenus ext commands [] children).length = 0 := by
      simp [ihc hno.1]
    exact absurd hz hsub
  | case7 items label isSubmenu children rest hlen ihr =>
    simp only [hasRenderableLeafList, Bool.or_eq_false_iff] at hno
    simp only [buildSubMenus, if_neg hlen]
    exact ihr hno.2
  | case8 items commandId label rest hvis ihr =>
    simp only [hasRenderableLeafList, Bool.or_eq_false_iff] at hno
    simp only [buildSubMenus, if_pos hvis]
    exact ihr hno.2
  | case9 items commandId label rest hvis ihr =>
    simp only [hasRenderableLeafList, Bool.or_eq_false_iff] at hno
    have hv : commands.isVisible ext commandId = true := by
      simpa using hvis
    simp [hv] at hno

/-- A single node without renderable leaves is skipped by the projection of
any sibling list it sits in. -/
theorem buildSubMenus_skip (ext : CommandRegistry)
    (commands : PhosphorCommandRegistry) (n : MenuNode)
    (hno : hasRenderableLeaf ext commands n = false)
    (items : List ItemOptions) (rest : List MenuNode) :
    buildSubMenus ext commands items (n :: rest) =
      buildSubMenus ext commands items rest := by
  cases n with
  | action commandId label =>
    simp only [hasRenderableLeaf, hasRenderableLeafList, Bool.or_eq_false_iff] at hno
    simp [buildSubMenus, hno.1]
  | composite label isSubmenu children =>
    simp only [hasRenderableLeaf, hasRenderableLeafList, Bool.or_eq_false_iff] at hno
    have hsub : buildSubMenus ext commands [] children = [] :=
      buildSubMenus_noRender ext commands [] children hno.1
    by_cases hlen : children.length > 0
    · cases isSubmenu <;> simp [buildSubMenus, hlen, hsub]
    · simp [buildSubMenus, hlen]

end Theia

namespace Theia

/-- The projection only ever appends to the accumulated item list. -/
theorem buildSubMenus_prefix (ext : CommandRegistry)
    (commands : PhosphorCommandRegistry) (l : List MenuNode) :
    ∀ items : List ItemOptions,
      ∃ t, buildSubMenus ext commands items l = items ++ t := by
  induction l with
  | nil =>
    intro items
    exact ⟨[], by simp [buildSubMenus]⟩
  | cons x rest ih =>
    intro items
    cases x with
    | action commandId label =>
      by_cases h : !commands.isVisible ext commandId
      · simpa [buildSubMenus, h] using ih items
      · obtain ⟨t, ht⟩ := ih (items ++ [ItemOptions.command commandId])
        exact ⟨ItemOptions.command commandId :: t, by simp [buildSubMenus, h, ht]⟩
    | composite label isSubmenu children =>
      by_cases h1 : children.length > 0
      · by_cases h2 : (buildSubMenus ext commands [] children).length = 0
        · cases isSubmenu <;> simpa [buildSubMenus, h1, h2] using ih items
        · cases isSubmenu with
          | true =>
            obtain ⟨t, ht⟩ :=
              ih (items ++ [ItemOptions.submenu (buildSubMenus ext commands [] children)])
            exact ⟨ItemOptions.submenu (buildSubMenus ext commands [] children) :: t,
              by simp [buildSubMenus, h1, h2, ht]⟩
          | false =>
            by_cases h3 : items.length > 0
            · obtain ⟨t, ht⟩ :=
                ih (items ++ [ItemOptions.separator] ++ buildSubMenus ext commands [] children)
              simp only [List.append_assoc, List.singleton_append] at ht
              exact ⟨ItemOptions.separator :: (buildSubMenus ext commands [] children ++ t),
                by simp [buildSubMenus, h1, h2, h3, ht]⟩
            · obtain ⟨t, ht⟩ := ih (items ++ buildSubMenus ext commands [] children)
              simp only [List.append_assoc] at ht
              exact ⟨buildSubMenus ext commands [] children ++ t,
                by simp [buildSubMenus, h1, h2, h3, ht]⟩
      · simpa [buildSubMenus, h1] using ih items

/-- Separator count of a projection of sibling groups whose local projections
are separator-free, for an arbitrary accumulator: every non-empty group adds
one separator, except that no separator precedes the first contribution to an
empty accumulator. -/
theorem sepCount_buildSubMenus (ext : CommandRegistry)
    (commands : PhosphorCommandRegistry) (gs : List MenuNode) :
    ∀ items : List ItemOptions,
      (∀ n ∈ gs, n.isGroupNode = true) →
      (∀ n ∈ gs, sepCount (buildSubMenus ext commands [] n.children) = 0) →
      sepCount (buildSubMenus ext commands items gs) =
        sepCount items +
            gs.countP (fun n => !(buildSubMenus ext commands [] n.children).isEmpty) -
          (if items.isEmpty then 1 else 0) := by
  induction gs with
  | nil =>
    intro items hg hs
    cases items <;> simp [buildSubMenus, sepCount]
  | cons g rest ih =>
    intro items hg hs
    have hgrp := hg g (by simp)
    have hg' : ∀ n ∈ rest, n.isGroupNode = true := fun n hn => hg n (by simp [hn])
    have hs' : ∀ n ∈ rest, sepCount (buildSubMenus ext commands [] n.children) = 0 :=
      fun n hn => hs n (by simp [hn])
    cases g with
    | action commandId label => simp [MenuNode.isGroupNode] at hgrp
    | composite label isSubmenu children =>
      cases isSubmenu with
      | true => simp [MenuNode.isGroupNode] at hgrp
      | false =>
        have hS0 : sepCount (buildSubMenus ext commands [] children) = 0 := by
          simpa [MenuNode.children] using
            hs (MenuNode.composite label false children) (by simp)
        by_cases h1 : children.length > 0
        · by_cases h2 : (buildSubMenus ext commands [] children).length = 0
          · have hskip : buildSubMenus ext commands items
                (MenuNode.composite label false children :: rest) =
                buildSubMenus ext commands items rest := by
              simp [buildSubMenus, h1, h2]
            have hpred : (!(buildSubMenus ext commands []
                (MenuNode.composite label false children).children).isEmpty) = false := by
              simp only [MenuNode.children, Bool.not_eq_false', List.isEmpty_iff]
              exact List.length_eq_zero.mp h2
            rw [hskip, ih items hg' hs', List.countP_cons, hpred]
            simp
          · have hSne : buildSubMenus ext commands [] children ≠ [] := by
              intro h
              exact h2 (by simp [h])
            have hpred : (!(buildSubMenus ext commands []
                (MenuNode.composite label false children).children).isEmpty) = true := by
              simp [MenuNode.children, List.isEmpty_iff, hSne]
            by_cases h3 : items.length > 0
            · have hstep : buildSubMenus ext commands items
                  (MenuNode.composite label false children :: rest) =
                  buildSubMenus ext commands
                    (items ++ [ItemOptions.separator] ++ buildSubMenus ext commands [] children)
                    rest := by
                simp [buildSubMenus, h1, h2, h3]
              have hine : items.isEmpty = false := by
                cases items
                · simp at h3
                · simp
              rw [hstep, ih _ hg' hs', List.countP_cons, hpred]
              simp only [sepCount] at *
              simp [List.countP_append, hine, hS0, ItemOptions.isSeparator]
              omega
            · have hie : items = [] := by
                cases items
                · rfl
                · simp at h3
              subst hie
              have hstep : buildSubMenus ext commands []
                  (MenuNode.composite label false children :: rest) =
                  buildSubMenus ext commands (buildSubMenus ext commands [] children) rest := by
                simp [buildSubMenus, h1, h2]
              have hSie : (buildSubMenus ext commands [] children).isEmpty = false := by
                simp [List.isEmpty_iff, hSne]
              rw [hstep, ih _ hg' hs', List.countP_cons, hpred]
              simp [hSie, hS0, sepCount]
              intro a ha
              have hnot := List.countP_eq_zero.mp (by simpa [sepCount] using hS0) a ha
              simpa using hnot
        · have hskip : buildSubMenus ext commands items
              (MenuNode.composite label false children :: rest) =
              buildSubMenus ext commands items rest := by
            simp [buildSubMenus, h1]
          have hcn : children = [] := by
            cases children
            · rfl
            · simp at h1
          have hpred : (!(buildSubMenus ext commands []
              (MenuNode.composite label false children).children).isEmpty) = false := by
            subst hcn
            simp [MenuNode.children, buildSubMenus]
          rw [hskip, ih items hg' hs', List.countP_cons, hpred]
          simp

end Theia

namespace Theia

/-- Elements of a separator-free descriptor list are not separators. -/
theorem not_sep_of_sepCount_zero {l : List ItemOptions}
    (h : sepCount l = 0) {x : ItemOptions} (hx : x ∈ l) :
    x.isSeparator = false := by
  have hnot := List.countP_eq_zero.mp (by simpa [sepCount] using h) x hx
  simpa using hnot

/-- Projecting sibling groups with separator-free local projections never
puts a separator last, provided the accumulator does not end in one. -/
theorem buildSubMenus_noTrailingSep (ext : CommandRegistry)
    (commands : PhosphorCommandRegistry) (gs : List MenuNode) :
    ∀ items : List ItemOptions,
      (∀ n ∈ gs, n.isGroupNode = true) →
      (∀ n ∈ gs, sepCount (buildSubMenus ext commands [] n.children) = 0) →
      (∀ x, items.getLast? = some x → x.isSeparator = false) →
      ∀ x, (buildSubMenus ext commands items gs).getLast? = some x →
        x.isSeparator = false := by
  induction gs with
  | nil =>
    intro items hg hs hQ x hx
    exact hQ x (by simpa [buildSubMenus] using hx)
  | cons g rest ih =>
    intro items hg hs hQ x hx
    have hgrp := hg g (by simp)
    have hg' : ∀ n ∈ rest, n.isGroupNode = true := fun n hn => hg n (by simp [hn])
    have hs' : ∀ n ∈ rest, sepCount (buildSubMenus ext commands [] n.children) = 0 :=
      fun n hn => hs n (by simp [hn])
    cases g with
    | action commandId label => simp [MenuNode.isGroupNode] at hgrp
    | composite label isSubmenu children =>
      cases isSubmenu with
      | true => simp [MenuNode.isGroupNode] at hgrp
      | false =>
        have hS0 : sepCount (buildSubMenus ext commands [] children) = 0 := by
          simpa [MenuNode.children] using
            hs (MenuNode.composite label false children) (by simp)
        by_cases h1 : children.length > 0
        · by_cases h2 : (buildSubMenus ext commands [] children).length = 0
          · rw [show buildSubMenus ext commands items
                (MenuNode.composite label false children :: rest) =
                buildSubMenus ext commands items rest from by
                simp [buildSubMenus, h1, h2]] at hx
            exact ih items hg' hs' hQ x hx
          · have hSne : buildSubMenus ext commands [] children ≠ [] := by
              intro h
              exact h2 (by simp [h])
            have hQS : ∀ A : List ItemOptions, ∀ y : ItemOptions,
                (A ++ buildSubMenus ext commands [] children).getLast? = some y →
                  y.isSeparator = false := by
              intro A y hy
              rw [List.getLast?_append_of_ne_nil A hSne] at hy
              obtain ⟨hne, rfl⟩ :=
                List.mem_getLast?_eq_getLast (Option.mem_def.mpr hy)
              exact not_sep_of_sepCount_zero hS0 (List.getLast_mem hne)
            by_cases h3 : items.length > 0
            · rw [show buildSubMenus ext commands items
                  (MenuNode.composite label false children :: rest) =
                  buildSubMenus ext commands
                    ((items ++ [ItemOptions.separator]) ++
                      buildSubMenus ext commands [] children) rest from by
                  simp [buildSubMenus, h1, h2, h3]] at hx
              exact ih _ hg' hs' (hQS (items ++ [ItemOptions.separator])) x hx
            · rw [show buildSubMenus ext commands items
                  (MenuNode.composite label false children :: rest) =
                  buildSubMenus ext commands
                    (items ++ buildSubMenus ext commands [] children) rest from by
                  simp [buildSubMenus, h1, h2, h3]] at hx
              exact ih _ hg' hs' (hQS items) x hx
        · rw [show buildSubMenus ext commands items
              (MenuNode.composite label false children :: rest) =
              buildSubMenus ext commands items rest from by
              simp [buildSubMenus, h1]] at hx
          exact ih items hg' hs' hQ x hx

/-- Projecting sibling groups with separator-free local projections from an
empty accumulator never puts a separator first. -/
theorem buildSubMenus_noLeadingSep (ext : CommandRegistry)
    (commands : PhosphorCommandRegistry) (gs : List MenuNode) :
    (∀ n ∈ gs, n.isGroupNode = true) →
    (∀ n ∈ gs, sepCount (buildSubMenus ext commands [] n.children) = 0) →
    ∀ x, (buildSubMenus ext commands [] gs).head? = some x →
      x.isSeparator = false := by
  induction gs with
  | nil =>
    intro hg hs x hx
    simp [buildSubMenus] at hx
  | cons g rest ih =>
    intro hg hs x hx
    have hgrp := hg g (by simp)
    have hg' : ∀ n ∈ rest, n.isGroupNode = true := fun n hn => hg n (by simp [hn])
    have hs' : ∀ n ∈ rest, sepCount (buildSubMenus ext commands [] n.children) = 0 :=
      fun n hn => hs n (by simp [hn])
    cases g with
    | action commandId label => simp [MenuNode.isGroupNode] at hgrp
    | composite label isSubmenu children =>
      cases isSubmenu with
      | true => simp [MenuNode.isGroupNode] at hgrp
      | false =>
        have hS0 : sepCount (buildSubMenus ext commands [] children) = 0 := by
          simpa [MenuNode.children] using
            hs (MenuNode.composite label false children) (by simp)
        by_cases h1 : children.length > 0
        · by_cases h2 : (buildSubMenus ext commands [] children).length = 0
          · rw [show buildSubMenus ext commands []
                (MenuNode.composite label false children :: rest) =
                buildSubMenus ext commands [] rest from by
                simp [buildSubMenus, h1, h2]] at hx
            exact ih hg' hs' x hx
          · have hSne : buildSubMenus ext commands [] children ≠ [] := by
              intro h
              exact h2 (by simp [h])
            rw [show buildSubMenus ext commands []
                (MenuNode.composite label false children :: rest) =
                buildSubMenus ext commands
                  (buildSubMenus ext commands [] children) rest from by
                simp [buildSubMenus, h1, h2]] at hx
            obtain ⟨t, ht⟩ := buildSubMenus_prefix ext commands rest
              (buildSubMenus ext commands [] children)
            rw [ht, List.head?_append_of_ne_nil _ hSne] at hx
            have hmem : x ∈ buildSubMenus ext commands [] children := by
              rw [List.eq_cons_of_mem_head? (Option.mem_def.mpr hx)]
              simp
            exact not_sep_of_sepCount_zero hS0 hmem
        · rw [show buildSubMenus ext commands []
              (MenuNode.composite label false children :: rest) =
              buildSubMenus ext commands [] rest from by
              simp [buildSubMenus, h1]] at hx
          exact ih hg' hs' x hx

end Theia

namespace Theia

/-- Projecting a concatenated child list processes the prefix first and
threads its result through as the accumulator for the suffix. -/
theorem buildSubMenus_append (ext : CommandRegistry) (commands : PhosphorCommandRegistry)
    (a : List MenuNode) :
    ∀ (items : List ItemOptions) (b : List MenuNode),
      buildSubMenus ext commands items (a ++ b) =
        buildSubMenus ext commands (buildSubMenus ext commands items a) b := by
  induction a with
  | nil =>
    intro items b
    simp [buildSubMenus]
  | cons x rest ih =>
    intro items b
    cases x with
    | action commandId label =>
      simp only [List.cons_append, buildSubMenus]
      by_cases h : !commands.isVisible ext commandId <;> simp [h, ih]
    | composite label isSubmenu children =>
      simp only [List.cons_append, buildSubMenus]
      by_cases h1 : children.length > 0
      · cases isSubmenu
        · by_cases h2 : (buildSubMenus ext commands [] children).length = 0
          · simp [h1, h2, ih]
          · by_cases h3 : items.length > 0 <;> simp [h1, h2, h3, ih]
        · by_cases h2 : (buildSubMenus ext commands [] children).length = 0 <;>
            simp [h1, h2, ih]
      · simp [h1, ih]

end Theia

namespace Theia

/-- C1: for every composite subtree whose projection after visibility
filtering contains zero renderable leaves, the projection is the empty
descriptor list, and a composite node (group or submenu) over such a subtree
is omitted from its parent's output wherever it occurs — no empty submenu
entry and no dangling separator — transitively up to the root. -/
theorem claim_C1 (ext : CommandRegistry) (commands : PhosphorCommandRegistry)
    (children : List MenuNode)
    (hno : hasRenderableLeafList ext commands children = false) :
    buildSubMenus ext commands [] children = [] ∧
      ∀ (label : Option String) (isSubmenu : Bool) (items : List ItemOptions)
        (pre post : List MenuNode),
        buildSubMenus ext commands items
            (pre ++ MenuNode.composite label isSubmenu children :: post) =
          buildSubMenus ext commands items (pre ++ post) := by
  refine ⟨buildSubMenus_noRender ext commands [] children hno, ?_⟩
  intro label isSubmenu items pre post
  rw [buildSubMenus_append, buildSubMenus_append]
  exact buildSubMenus_skip ext commands (MenuNode.composite label isSubmenu children)
    (by simp [hasRenderableLeaf, hasRenderableLeafList, hno]) _ post

/-- C1 witness: the hidden "File" scenario subtree has no renderable leaf and
projects to the empty list. -/
theorem claim_C1_witness :
    hasRenderableLeafList extHidden phosphorEmpty hiddenChildren = false ∧
      buildSubMenus extHidden phosphorEmpty [] hiddenChildren = [] := by
  have hno : hasRenderableLeafList extHidden phosphorEmpty hiddenChildren = false := by
    simp [hiddenChildren, hasRenderableLeafList, PhosphorCommandRegistry.isVisible,
      phosphorEmpty]
  exact ⟨hno, (claim_C1 extHidden phosphorEmpty hiddenChildren hno).1⟩

/-- C2: a separator is emitted immediately before a non-empty group's items
exactly when the accumulated output is already non-empty, and never otherwise
(empty groups, submenu children and action children emit none); over sibling
groups with separator-free local projections the separator count is the
number of non-empty groups minus one, with no leading or trailing separator;
and Group[Action(cmdA), Group[Action(cmdB)]] with both commands visible
projects to [Command(cmdA), Separator, Command(cmdB)]. -/
theorem claim_C2 (ext : CommandRegistry) (commands : PhosphorCommandRegistry) :
    (∀ (items : List ItemOptions) (label : Option String) (cs rest : List MenuNode),
        buildSubMenus ext commands [] cs ≠ [] → items ≠ [] →
        buildSubMenus ext commands items (MenuNode.composite label false cs :: rest) =
          buildSubMenus ext commands
            ((items ++ [ItemOptions.separator]) ++ buildSubMenus ext commands [] cs)
            rest) ∧
    (∀ (label : Option String) (cs rest : List MenuNode),
        buildSubMenus ext commands [] cs ≠ [] →
        buildSubMenus ext commands [] (MenuNode.composite label false cs :: rest) =
          buildSubMenus ext commands (buildSubMenus ext commands [] cs) rest) ∧
    (∀ (items : List ItemOptions) (label : Option String) (cs rest : List MenuNode),
        buildSubMenus ext commands [] cs = [] →
        buildSubMenus ext commands items (MenuNode.composite label false cs :: rest) =
          buildSubMenus ext commands items rest) ∧
    (∀ (items : List ItemOptions) (label : Option String) (cs rest : List MenuNode),
        buildSubMenus ext commands [] cs ≠ [] →
        buildSubMenus ext commands items (MenuNode.composite label true cs :: rest) =
          buildSubMenus ext commands
            (items ++ [ItemOptions.submenu (buildSubMenus ext commands [] cs)]) rest) ∧
    (∀ (items : List ItemOptions) (commandId : String) (label : Option String)
        (rest : List MenuNode),
        commands.isVisible ext commandId = true →
        buildSubMenus ext commands items (MenuNode.action commandId label :: rest) =
          buildSubMenus ext commands (items ++ [ItemOptions.command commandId]) rest) ∧
    (∀ gs : List MenuNode,
        (∀ n ∈ gs, n.isGroupNode = true) →
        (∀ n ∈ gs, sepCount (buildSubMenus ext commands [] n.children) = 0) →
        sepCount (buildSubMenus ext commands [] gs) =
            gs.countP (fun n => !(buildSubMenus ext commands [] n.children).isEmpty) - 1 ∧
          (∀ x, (buildSubMenus ext commands [] gs).head? = some x →
            x.isSeparator = false) ∧
          (∀ x, (buildSubMenus ext commands [] gs).getLast? = some x →
            x.isSeparator = false)) ∧
    (commands.isVisible ext "cmdA" = true → commands.isVisible ext "cmdB" = true →
      buildSubMenus ext commands []
          [MenuNode.action "cmdA" none,
           MenuNode.composite none false [MenuNode.action "cmdB" none]] =
        [ItemOptions.command "cmdA", ItemOptions.separator,
         ItemOptions.command "cmdB"]) := by
  refine ⟨?_, ?_, ?_, ?_, ?_, ?_, ?_⟩
  · intro items label cs rest hne hni
    have hcs : cs.length > 0 := by
      cases cs with
      | nil => exact absurd (by simp [buildSubMenus]) hne
      | cons a l => simp
    have h2 : ¬(buildSubMenus ext commands [] cs).length = 0 := by
      simpa [List.length_eq_zero] using hne
    have h3 : items.length > 0 := by
      cases items with
      | nil => exact absurd rfl hni
      | cons a l => simp
    simp [buildSubMenus, hcs, h2, h3]
  · intro label cs rest hne
    have hcs : cs.length > 0 := by
      cases cs with
      | nil => exact absurd (by simp [buildSubMenus]) hne
      | cons a l => simp
    have h2 : ¬(buildSubMenus ext commands [] cs).length = 0 := by
      simpa [List.length_eq_zero] using hne
    simp [buildSubMenus, hcs, h2]
  · intro items label cs rest hemp
    by_cases hcs : cs.length > 0
    · simp [buildSubMenus, hcs, hemp]
    · simp [buildSubMenus, hcs]
  · intro items label cs rest hne
    have hcs : cs.length > 0 := by
      cases cs with
      | nil => exact absurd (by simp [buildSubMenus]) hne
      | cons a l => simp
    have h2 : ¬(buildSubMenus ext commands [] cs).length = 0 := by
      simpa [List.length_eq_zero] using hne
    simp [buildSubMenus, hcs, h2]
  · intro items commandId label rest hvis
    simp [buildSubMenus, hvis]
  · intro gs hg hs
    refine ⟨?_, buildSubMenus_noLeadingSep ext commands gs hg hs,
      buildSubMenus_noTrailingSep ext commands gs [] hg hs (by simp)⟩
    simpa [sepCount] using sepCount_buildSubMenus ext commands gs [] hg hs
  · intro hA hB
    simp [buildSubMenus, hA, hB]

/-- C2 witness: the scenario instance under a force-visible registry. -/
theorem claim_C2_witness :
    buildSubMenus extVisible phosphorForce []
        [MenuNode.action "cmdA" none,
         MenuNode.composite none false [MenuNode.action "cmdB" none]] =
      [ItemOptions.command "cmdA", ItemOptions.separator,
       ItemOptions.command "cmdB"] :=
  (claim_C2 extVisible phosphorForce).2.2.2.2.2.2 rfl rfl

end Theia

namespace Theia

/-- `addPhosphorCommand` never touches the visibility override. -/
theorem addPhosphorCommand_forceVisible (ext : CommandRegistry)
    (kb : KeybindingRegistry) (c : PhosphorCommandRegistry)
    (commandId : String) (label : Option String) :
    (addPhosphorCommand ext kb c commandId label).forceVisible = c.forceVisible := by
  unfold addPhosphorCommand
  cases ext.getCommand commandId with
  | none => rfl
  | some command => cases hb : kb.getKeybindingsForCommand command.id <;> simp [hb]

/-- `addPhosphorCommands` never touches the visibility override. -/
theorem addPhosphorCommandsList_forceVisible (ext : CommandRegistry)
    (kb : KeybindingRegistry) (c : PhosphorCommandRegistry) (l : List MenuNode) :
    (addPhosphorCommandsList ext kb c l).forceVisible = c.forceVisible := by
  induction c, l using addPhosphorCommandsList.induct ext kb with
  | case1 c => simp [addPhosphorCommandsList]
  | case2 c commandId label rest ih =>
    rw [addPhosphorCommandsList, ih, addPhosphorCommand_forceVisible]
  | case3 c label isSubmenu children rest ihc ihr =>
    rw [addPhosphorCommandsList, ihr, ihc]

/-- The entries added by `addPhosphorCommand`: nothing for an unresolved
command, one entry keyed and captured by `command.id` otherwise. -/
theorem addPhosphorCommand_entries (ext : CommandRegistry)
    (kb : KeybindingRegistry) (c : PhosphorCommandRegistry)
    (commandId : String) (label : Option String) :
    (addPhosphorCommand ext kb c commandId label).entries =
      c.entries ++
        (match ext.getCommand commandId with
          | none => []
          | some command => [(command.id, ⟨label, command.iconClass, command.id⟩)]) := by
  unfold addPhosphorCommand
  cases hres : ext.getCommand commandId with
  | none => simp
  | some command => cases hb : kb.getKeybindingsForCommand command.id <;> simp [hb]

/-- Provenance of registry entries: every entry either was already there or
records a command resolved by the external registry, keyed by that command's
id, which is also the captured callback id. -/
theorem addPhosphorCommandsList_entries_prov (ext : CommandRegistry)
    (kb : KeybindingRegistry) (c : PhosphorCommandRegistry) (l : List MenuNode) :
    ∀ e ∈ (addPhosphorCommandsList ext kb c l).entries,
      e ∈ c.entries ∨
        ∃ i cmd, ext.getCommand i = some cmd ∧ e.1 = cmd.id ∧
          e.2.commandId = cmd.id := by
  induction c, l using addPhosphorCommandsList.induct ext kb with
  | case1 c =>
    intro e he
    rw [addPhosphorCommandsList] at he
    exact Or.inl he
  | case2 c commandId label rest ih =>
    intro e he
    rw [addPhosphorCommandsList] at he
    rcases ih e he with hmem | hnew
    · rw [addPhosphorCommand_entries] at hmem
      rcases List.mem_append.mp hmem with hold | hadd
      · exact Or.inl hold
      · cases hres : ext.getCommand commandId with
        | none => simp [hres] at hadd
        | some command =>
          refine Or.inr ⟨commandId, command, hres, ?_⟩
          simp [hres] at hadd
          simp [hadd]
    · exact Or.inr hnew
  | case3 c label isSubmenu children rest ihc ihr =>
    intro e he
    rw [addPhosphorCommandsList] at he
    rcases ihr e he with hmem | hnew
    · exact ihc e hmem
    · exact Or.inr hnew

/-- A freshly created (context-menu) registry reports an action invisible
whenever the external registry does: the stored callback queries the external
registry with the id the entry was keyed by. -/
theorem createPhosporCommands_isVisible_false (extC : CommandRegistry)
    (kb : KeybindingRegistry) (menu : MenuNode) (extN : CommandRegistry)
    (id : String) (hvis : extN.isVisible id = false) :
    (createPhosporCommands extC kb menu).isVisible extN id = false := by
  have hforce : (createPhosporCommands extC kb menu).forceVisible = false := by
    unfold createPhosporCommands
    rw [addPhosphorCommandsList_forceVisible]
  rw [PhosphorCommandRegistry.isVisible, if_neg (by simp [hforce])]
  cases hf : (createPhosporCommands extC kb menu).entries.find? (fun e => e.1 == id) with
  | none => rfl
  | some e =>
    have hkey : e.1 = id := by simpa using List.find?_some hf
    have hmem := List.mem_of_find?_eq_some hf
    rcases addPhosphorCommandsList_entries_prov extC kb ⟨[], [], false⟩
        menu.children e (by simpa [createPhosporCommands] using hmem) with h0 | hprov
    · simp at h0
    · obtain ⟨i, cmd, hres, hk, hcap⟩ := hprov
      show extN.isVisible e.2.commandId = false
      rw [hcap, ← hk, hkey]
      exact hvis

/-- In a freshly created registry, an id the external registry does not
resolve has no entry at all, so its visibility callback lookup fails. -/
theorem createPhosporCommands_isVisible_unresolved (extC : CommandRegistry)
    (kb : KeybindingRegistry) (menu : MenuNode) (extN : CommandRegistry)
    (id : String)
    (hwf : ∀ i cmd, extC.getCommand i = some cmd → cmd.id = i)
    (hun : extC.getCommand id = none) :
    (createPhosporCommands extC kb menu).isVisible extN id = false := by
  have hforce : (createPhosporCommands extC kb menu).forceVisible = false := by
    unfold createPhosporCommands
    rw [addPhosphorCommandsList_forceVisible]
  rw [PhosphorCommandRegistry.isVisible, if_neg (by simp [hforce])]
  cases hf : (createPhosporCommands extC kb menu).entries.find? (fun e => e.1 == id) with
  | none => rfl
  | some e =>
    exfalso
    have hkey : e.1 = id := by simpa using List.find?_some hf
    have hmem := List.mem_of_find?_eq_some hf
    rcases addPhosphorCommandsList_entries_prov extC kb ⟨[], [], false⟩
        menu.children e (by simpa [createPhosporCommands] using hmem) with h0 | hprov
    · simp at h0
    · obtain ⟨i, cmd, hres, hk, hcap⟩ := hprov
      have hi : i = id := by
        rw [← hwf i cmd hres, ← hk]
        exact hkey
      rw [hi, hun] at hres
      exact Option.noConfusion hres

/-- The menu-bar registry reports everything visible. -/
theorem createMenuBarCommands_isVisible (ext : CommandRegistry)
    (kb : KeybindingRegistry) (menu : MenuNode) (extN : CommandRegistry)
    (id : String) :
    (createMenuBarCommands ext kb menu).isVisible extN id = true := by
  rw [PhosphorCommandRegistry.isVisible]
  simp [createMenuBarCommands]

end Theia

namespace Theia

/-- C3: an action whose command resolves but is invisible in the external
registry is omitted by the context-menu projection, while the menu-bar
projection (forced visibility) includes it as a Command descriptor. -/
theorem claim_C3 (ext : CommandRegistry) (kb : KeybindingRegistry)
    (menuModel : MenuNode) (id : String) (lbl : Option String) (cmd : Command)
    (items : List ItemOptions) (rest : List MenuNode)
    (_hres : ext.getCommand id = some cmd) (hvis : ext.isVisible id = false) :
    buildSubMenus ext (createPhosporCommands ext kb menuModel) items
        (MenuNode.action id lbl :: rest) =
      buildSubMenus ext (createPhosporCommands ext kb menuModel) items rest ∧
    buildSubMenus ext (createMenuBarCommands ext kb menuModel) items
        (MenuNode.action id lbl :: rest) =
      buildSubMenus ext (createMenuBarCommands ext kb menuModel)
        (items ++ [ItemOptions.command id]) rest := by
  constructor
  · have hv := createPhosporCommands_isVisible_false ext kb menuModel ext id hvis
    simp [buildSubMenus, hv]
  · have hv := createMenuBarCommands_isVisible ext kb menuModel ext id
    simp [buildSubMenus, hv]

/-- C3 witness: a resolved but hidden `cmdA` at concrete registries. -/
theorem claim_C3_witness :
    extHidden.getCommand "cmdA" = some ⟨"cmdA", none⟩ ∧
      extHidden.isVisible "cmdA" = false ∧
      (buildSubMenus extHidden
          (createPhosporCommands extHidden kbEmpty
            (MenuNode.composite none false [MenuNode.action "cmdA" none])) []
          [MenuNode.action "cmdA" none] =
        buildSubMenus extHidden
          (createPhosporCommands extHidden kbEmpty
            (MenuNode.composite none false [MenuNode.action "cmdA" none])) [] [] ∧
      buildSubMenus extHidden
          (createMenuBarCommands extHidden kbEmpty
            (MenuNode.composite none false [MenuNode.action "cmdA" none])) []
          [MenuNode.action "cmdA" none] =
        buildSubMenus extHidden
          (createMenuBarCommands extHidden kbEmpty
            (MenuNode.composite none false [MenuNode.action "cmdA" none]))
          ([] ++ [ItemOptions.command "cmdA"]) []) :=
  ⟨rfl, rfl,
    claim_C3 extHidden kbEmpty
      (MenuNode.composite none false [MenuNode.action "cmdA" none])
      "cmdA" none ⟨"cmdA", none⟩ [] [] rfl rfl⟩

/-- C4 counterexample: an unresolved command's action IS emitted as a
Command descriptor by the menu-bar (forced-visibility) projection, so the
claim that neither variant ever emits one is false. -/
theorem claim_C4_cx :
    extEmpty.getCommand "cmdX" = none ∧
      buildSubMenus extEmpty
          (createMenuBarCommands extEmpty kbEmpty
            (MenuNode.composite none false [MenuNode.action "cmdX" none]))
          [] [MenuNode.action "cmdX" none] =
        [ItemOptions.command "cmdX"] := by
  refine ⟨rfl, ?_⟩
  simp [buildSubMenus, createMenuBarCommands, createPhosporCommands,
    addPhosphorCommandsList, addPhosphorCommand, PhosphorCommandRegistry.isVisible,
    extEmpty, kbEmpty, MenuNode.children]

/-- C4 (amended): an action with an unresolved command is silently omitted by
the context-menu projection regardless of any visibility flag, but the
menu-bar projection's forced visibility bypasses that filtering and emits a
Command descriptor for it. -/
theorem claim_C4 (ext : CommandRegistry) (kb : KeybindingRegistry)
    (menuModel : MenuNode) (id : String) (lbl : Option String)
    (items : List ItemOptions) (rest : List MenuNode)
    (hwf : ∀ i cmd, ext.getCommand i = some cmd → cmd.id = i)
    (hun : ext.getCommand id = none) :
    buildSubMenus ext (createPhosporCommands ext kb menuModel) items
        (MenuNode.action id lbl :: rest) =
      buildSubMenus ext (createPhosporCommands ext kb menuModel) items rest ∧
    buildSubMenus ext (createMenuBarCommands ext kb menuModel) items
        (MenuNode.action id lbl :: rest) =
      buildSubMenus ext (createMenuBarCommands ext kb menuModel)
        (items ++ [ItemOptions.command id]) rest := by
  constructor
  · have hv := createPhosporCommands_isVisible_unresolved ext kb menuModel ext id hwf hun
    simp [buildSubMenus, hv]
  · have hv := createMenuBarCommands_isVisible ext kb menuModel ext id
    simp [buildSubMenus, hv]

/-- C4 witness: the amended claim at the concrete empty registry. -/
theorem claim_C4_witness :
    extEmpty.getCommand "cmdX" = none ∧
      buildSubMenus extEmpty
          (createPhosporCommands extEmpty kbEmpty
            (MenuNode.composite none false [MenuNode.action "cmdX" none])) []
          [MenuNode.action "cmdX" none] =
        buildSubMenus extEmpty
          (createPhosporCommands extEmpty kbEmpty
            (MenuNode.composite none false [MenuNode.action "cmdX" none])) [] [] :=
  ⟨rfl,
    (claim_C4 extEmpty kbEmpty
      (MenuNode.composite none false [MenuNode.action "cmdX" none])
      "cmdX" none [] [] (fun _ _ h => Option.noConfusion h) rfl).1⟩

/-- C5: for a resolved command, a non-empty collaborator-returned binding
sequence records exactly one accelerator — that of the first binding — and an
empty sequence records none. -/
theorem claim_C5 (ext : CommandRegistry) (kb : KeybindingRegistry)
    (commands : PhosphorCommandRegistry) (commandId : String)
    (label : Option String) (cmd : Command)
    (hres : ext.getCommand commandId = some cmd) :
    (∀ (b1 : Keybinding) (bs : List Keybinding),
        kb.getKeybindingsForCommand cmd.id = b1 :: bs →
        (addPhosphorCommand ext kb commands commandId label).keybindings =
          commands.keybindings ++
            [⟨cmd.id, Keybinding.acceleratorFor b1, ".p-Widget"⟩]) ∧
    (kb.getKeybindingsForCommand cmd.id = [] →
      (addPhosphorCommand ext kb commands commandId label).keybindings =
        commands.keybindings) := by
  constructor
  · intro b1 bs hb
    unfold addPhosphorCommand
    rw [hres]
    simp [hb]
  · intro hb
    unfold addPhosphorCommand
    rw [hres]
    simp [hb]

/-- C5 witness: with two bindings, exactly the first one's accelerator is
recorded. -/
theorem claim_C5_witness :
    extVisible.getCommand "cmdA" = some ⟨"cmdA", none⟩ ∧
      kbTwo.getKeybindingsForCommand "cmdA" = [⟨"ctrlcmd+n"⟩, ⟨"alt+n"⟩] ∧
      (addPhosphorCommand extVisible kbTwo phosphorEmpty "cmdA" none).keybindings =
        phosphorEmpty.keybindings ++
          [⟨"cmdA", Keybinding.acceleratorFor ⟨"ctrlcmd+n"⟩, ".p-Widget"⟩] :=
  ⟨rfl, rfl,
    (claim_C5 extVisible kbTwo phosphorEmpty "cmdA" none ⟨"cmdA", none⟩ rfl).1
      ⟨"ctrlcmd+n"⟩ [⟨"alt+n"⟩] rfl⟩

end Theia

namespace Theia

/-- C6 counterexample: a context menu created while `cmdX` was unregistered,
shown after `cmdX` became registered and visible.  The code's `aboutToShow`
reuses the creation-time snapshot and still renders nothing, while the
claimed rebuild-from-current-state behaviour would render the command — so
the displayed contents are staler than the instant preceding visibility. -/
theorem claim_C6_cx :
    (DynamicMenuWidget.aboutToShow extVisible
        (createContextMenu extEmpty kbEmpty
          (MenuNode.composite none false [MenuNode.action "cmdX" none]))).items = [] ∧
    (aboutToShowSpecRebuild extVisible kbEmpty
        (createContextMenu extEmpty kbEmpty
          (MenuNode.composite none false [MenuNode.action "cmdX" none]))).items =
      [ItemOptions.command "cmdX"] ∧
    (DynamicMenuWidget.aboutToShow extVisible
        (createContextMenu extEmpty kbEmpty
          (MenuNode.composite none false [MenuNode.action "cmdX" none]))).items ≠
      (aboutToShowSpecRebuild extVisible kbEmpty
        (createContextMenu extEmpty kbEmpty
          (MenuNode.composite none false [MenuNode.action "cmdX" none]))).items := by
  refine ⟨?_, ?_, ?_⟩
  · simp [DynamicMenuWidget.aboutToShow, DynamicMenuWidget.clearItems, updateSubMenus,
      createContextMenu, DynamicMenuWidget.create, createPhosporCommands,
      addPhosphorCommandsList, addPhosphorCommand, MenuNode.children, buildSubMenus,
      PhosphorCommandRegistry.isVisible, extEmpty, kbEmpty]
  · simp [aboutToShowSpecRebuild, createContextMenu, DynamicMenuWidget.create,
      updateSubMenus, createPhosporCommands, addPhosphorCommandsList,
      addPhosphorCommand, MenuNode.children, buildSubMenus,
      PhosphorCommandRegistry.isVisible, extEmpty, extVisible, kbEmpty]
  · intro h
    have h1 : (DynamicMenuWidget.aboutToShow extVisible
        (createContextMenu extEmpty kbEmpty
          (MenuNode.composite none false [MenuNode.action "cmdX" none]))).items = [] := by
      simp [DynamicMenuWidget.aboutToShow, DynamicMenuWidget.clearItems, updateSubMenus,
        createContextMenu, DynamicMenuWidget.create, createPhosporCommands,
        addPhosphorCommandsList, addPhosphorCommand, MenuNode.children, buildSubMenus,
        PhosphorCommandRegistry.isVisible, extEmpty, kbEmpty]
    have h2 : (aboutToShowSpecRebuild extVisible kbEmpty
        (createContextMenu extEmpty kbEmpty
          (MenuNode.composite none false [MenuNode.action "cmdX" none]))).items =
        [ItemOptions.command "cmdX"] := by
      simp [aboutToShowSpecRebuild, createContextMenu, DynamicMenuWidget.create,
        updateSubMenus, createPhosporCommands, addPhosphorCommandsList,
        addPhosphorCommand, MenuNode.children, buildSubMenus,
        PhosphorCommandRegistry.isVisible, extEmpty, extVisible, kbEmpty]
    rw [h1, h2] at h
    exact List.noConfusion h

/-- C6 (amended): on every show request the view discards the previously
rendered descriptors and re-runs the projection over the current model tree
against the widget's creation-time Phosphor snapshot, whose visibility
callbacks query the show-time external state; command resolution and
keybindings stay as captured at creation. -/
theorem claim_C6 (extNow : CommandRegistry) (w : DynamicMenuWidget)
    (prev : List ItemOptions) :
    DynamicMenuWidget.aboutToShow extNow { w with items := prev } =
      { w with items := buildSubMenus extNow w.commands [] w.menu.children } := rfl

/-- C9: the projection is a deterministic pure function of the model and the
snapshot — re-running `aboutToShow` against unchanged inputs leaves the
widget fixed and reproduces the descriptor list exactly. -/
theorem claim_C9 (extNow : CommandRegistry) (w : DynamicMenuWidget) :
    DynamicMenuWidget.aboutToShow extNow (DynamicMenuWidget.aboutToShow extNow w) =
        DynamicMenuWidget.aboutToShow extNow w ∧
      (DynamicMenuWidget.aboutToShow extNow
          (DynamicMenuWidget.aboutToShow extNow w)).items =
        (DynamicMenuWidget.aboutToShow extNow w).items :=
  ⟨rfl, rfl⟩

/-- C7: `open` captures the focused element in a fresh `aboutToClose`
callback; closing restores focus to exactly that element (wherever focus
moved meanwhile) and detaches the callback, and a close without a fresh open
restores nothing. -/
theorem claim_C7 (s : MenuFocusState) (h : s.aboutToCloseCallbacks = []) :
    (DynamicMenuWidget.openConnect s).aboutToCloseCallbacks = [s.activeElement] ∧
    (∀ f : String,
      fireAboutToClose { DynamicMenuWidget.openConnect s with activeElement := f } =
        { activeElement := s.activeElement, aboutToCloseCallbacks := [] }) ∧
    (∀ s2 : MenuFocusState, s2.aboutToCloseCallbacks = [] →
      fireAboutToClose s2 = s2) := by
  refine ⟨?_, ?_, ?_⟩
  · simp [DynamicMenuWidget.openConnect, h]
  · intro f
    simp [DynamicMenuWidget.openConnect, fireAboutToClose, h,
      runAboutToCloseCallbacks]
  · intro s2 h2
    cases s2 with
    | mk a cbs =>
      simp only at h2
      subst h2
      simp [fireAboutToClose, runAboutToCloseCallbacks]

/-- C7 witness: one open/close cycle from the editor. -/
theorem claim_C7_witness :
    (⟨"editor", []⟩ : MenuFocusState).aboutToCloseCallbacks = [] ∧
      fireAboutToClose
          { DynamicMenuWidget.openConnect ⟨"editor", []⟩ with
            activeElement := "menuItem" } =
        { activeElement := "editor", aboutToCloseCallbacks := [] } :=
  ⟨rfl, (claim_C7 ⟨"editor", []⟩ rfl).2.1 "menuItem"⟩

/-- C8: opening a uri in `'reveal'` mode when the manager already holds a
widget under the derived key returns that widget, leaves the manager
unchanged (creates nothing), and calls `revealWidget` — never
`activateWidget` — on the shell. -/
theorem claim_C8 (handlerId : String) (st : WidgetManagerState) (uri : URI)
    (w : Widget) (options : WidgetOpenerOptions)
    (hw : st.getWidget handlerId (WidgetOpenHandler.createWidgetOptions uri) = some w)
    (hm : options.mode = some WidgetOpenMode.reveal) :
    (WidgetOpenHandler.open handlerId st uri (some options)).1 = w ∧
    (WidgetOpenHandler.open handlerId st uri (some options)).2.1 = st ∧
    (WidgetOpenHandler.open handlerId st uri (some options)).2.2 =
      (if !w.isAttached then
        [ShellCall.addWidget w.wid (options.widgetOptions.getD "main")]
      else []) ++ [ShellCall.revealWidget w.wid] ∧
    ∀ i : Nat,
      ShellCall.activateWidget i ∉
        (WidgetOpenHandler.open handlerId st uri (some options)).2.2 := by
  have hoc : st.getOrCreateWidget handlerId
      (WidgetOpenHandler.createWidgetOptions uri) = (w, st) := by
    rw [WidgetManagerState.getOrCreateWidget, hw]
  refine ⟨?_, ?_, ?_, ?_⟩
  · simp [WidgetOpenHandler.open, hoc]
  · simp [WidgetOpenHandler.open, hoc]
  · simp [WidgetOpenHandler.open, hoc, WidgetOpenHandler.doOpen, hm]
  · intro i
    by_cases ha : w.isAttached <;>
      simp [WidgetOpenHandler.open, hoc, WidgetOpenHandler.doOpen, hm, ha]

end Theia

namespace Theia

/-- C8 witness: revealing an already-materialized widget. -/
theorem claim_C8_witness :
    stFix.getWidget "code-editor"
        (WidgetOpenHandler.createWidgetOptions uriFix) = some widgetFix ∧
      (WidgetOpenHandler.open "code-editor" stFix uriFix
          (some ⟨some WidgetOpenMode.reveal, none⟩)).1 = widgetFix ∧
      (WidgetOpenHandler.open "code-editor" stFix uriFix
          (some ⟨some WidgetOpenMode.reveal, none⟩)).2.2 =
        (if !widgetFix.isAttached then
          [ShellCall.addWidget widgetFix.wid
            ((⟨some WidgetOpenMode.reveal, none⟩ : WidgetOpenerOptions).widgetOptions.getD "main")]
        else []) ++ [ShellCall.revealWidget widgetFix.wid] := by
  have hw : stFix.getWidget "code-editor"
      (WidgetOpenHandler.createWidgetOptions uriFix) = some widgetFix := by rfl
  have happ := claim_C8 "code-editor" stFix uriFix widgetFix
    ⟨some WidgetOpenMode.reveal, none⟩ hw rfl
  exact ⟨hw, happ.1, happ.2.2.1⟩

/-- C10: two URIs differing only in their fragment derive the same
widget-identity key — the string form of the URI with its fragment removed —
so `getByUri`, `getOrCreateWidget` and `open` resolve to the same widget. -/
theorem claim_C10 (handlerId : String) (st : WidgetManagerState) (u : URI)
    (f : String) (options : Option WidgetOpenerOptions) :
    WidgetOpenHandler.createWidgetOptions u = (URI.withoutFragment u).toString ∧
    WidgetOpenHandler.createWidgetOptions { u with fragment := f } =
      WidgetOpenHandler.createWidgetOptions u ∧
    WidgetOpenHandler.getByUri handlerId st { u with fragment := f } =
      WidgetOpenHandler.getByUri handlerId st u ∧
    st.getOrCreateWidget handlerId
        (WidgetOpenHandler.createWidgetOptions { u with fragment := f }) =
      st.getOrCreateWidget handlerId (WidgetOpenHandler.createWidgetOptions u) ∧
    (WidgetOpenHandler.open handlerId st { u with fragment := f } options).1 =
      (WidgetOpenHandler.open handlerId st u options).1 :=
  ⟨rfl, rfl, rfl, rfl, rfl⟩

end Theia
